import Mathlib

/-!
Verification of the live-queries SSE client (src/sse.ts, src/subscription.ts).

Strings are modelled as `List Char` (`Str`).  Each definition below is a
shallow embedding of the correspondingly named function of the source;
JavaScript regular-expression splits are unfolded into explicit pattern
matches following the alternation/backtracking order of the regex engine.
-/

namespace LQC

abbrev Str := List Char

/-- Convert a Lean string literal to the `List Char` representation. -/
def str (s : String) : Str := s.toList

/-- Whitespace as trimmed by the JavaScript trim family (ASCII part). -/
def isJsWhitespace (c : Char) : Bool :=
  c = ' ' || c = '\t' || c = '\n' || c = '\r' || c = '\x0b' || c = '\x0c'

/-- Model of `String.prototype.trimStart` / `trimLeft`. -/
def trimLeftWs (s : Str) : Str := s.dropWhile isJsWhitespace

/-- Model of `String.prototype.trimEnd`. -/
def trimRightWs (s : Str) : Str := (s.reverse.dropWhile isJsWhitespace).reverse

/-- Model of `String.prototype.trim`. -/
def jsTrim (s : Str) : Str := trimLeftWs (trimRightWs s)

/-- Model of `line.indexOf(':')`: index of the first field separator,
`none` standing for the JavaScript result `-1`. -/
def sepIdx (line : Str) : Option Nat := line.findIdx? (· = ':')

/-- Model of `chunk.split(/\n|\r\n|\r/)` (sse.ts line 229).  The regex has no
capture group, so the result is the list of pieces between line breaks; the
alternation tries `\n` first, then `\r\n`, then `\r`, which amounts to
breaking at `\n`, at `\r\n` (two characters) and at a lone `\r`. -/
def splitLinesAux : Str → Str → List Str
  | [], acc => [acc.reverse]
  | '\n' :: rest, acc => acc.reverse :: splitLinesAux rest []
  | '\r' :: '\n' :: rest, acc => acc.reverse :: splitLinesAux rest []
  | '\r' :: rest, acc => acc.reverse :: splitLinesAux rest []
  | c :: rest, acc => splitLinesAux rest (c :: acc)

def splitLines (s : Str) : List Str := splitLinesAux s []

/-- The four own fields of the accumulator object
`{ id: null, retry: null, data: '', event: 'message' }` in
`_parseEventChunk` (sse.ts line 227). -/
def coreFieldNames : List Str := [str "id", str "retry", str "data", str "event"]

/-- String-keyed own properties of `Object.prototype`.  The source tests
field names with the JavaScript `in` operator (`field in e`, sse.ts
line 239), which consults the prototype chain, so these names pass the
test as well as the four own fields. -/
def protoPropNames : List Str :=
  [str "constructor", str "hasOwnProperty", str "isPrototypeOf",
   str "propertyIsEnumerable", str "toLocaleString", str "toString",
   str "valueOf", str "__defineGetter__", str "__defineSetter__",
   str "__lookupGetter__", str "__lookupSetter__", str "__proto__"]

/-- The mutable accumulator `e` of `_parseEventChunk`.  `extra` records own
properties created by assigning to a prototype-named field (`e[field] =
value` where `field` is, e.g., `toString`); they are never read when the
event object is built. -/
structure EventAccum where
  id : Option Str
  retry : Option Str
  data : Str
  event : Str
  extra : List (Str × Str)
deriving DecidableEq

def initAccum : EventAccum := ⟨none, none, [], str "message", []⟩

/-- Assignment `o[k] = v` on a plain object: updates the value in place if
the key exists, otherwise appends a new own property. -/
def assocSetStr : List (Str × Str) → Str → Str → List (Str × Str)
  | [], k, v => [(k, v)]
  | (k', v') :: rest, k, v =>
    if k' = k then (k', v) :: rest else (k', v') :: assocSetStr rest k v

/-- Model of the JavaScript `field in e` test (sse.ts line 239): true for
the four own fields, for `Object.prototype` properties, and for own
properties created by earlier prototype-named assignments. -/
def fieldInAccum (st : EventAccum) (field : Str) : Bool :=
  decide (field ∈ coreFieldNames) || decide (field ∈ protoPropNames) ||
    st.extra.any (fun p => p.1 == field)

/-- `field = line.substring(0, index)` of the right-trimmed line
(sse.ts line 238). -/
def lineField (rawLine : Str) (index : Nat) : Str :=
  (trimRightWs rawLine).take index

/-- `value = line.substring(index + 1).trimLeft()` of the right-trimmed
line (sse.ts line 243). -/
def lineValue (rawLine : Str) (index : Nat) : Str :=
  trimLeftWs ((trimRightWs rawLine).drop (index + 1))

/-- The body of the `forEach` over lines in `_parseEventChunk`
(sse.ts lines 229-249): the line is right-trimmed (`line.trimEnd()`),
`index` is the position of the first `:` (skip when absent or first);
`data` appends its value, every other field passing the `in` test is
overwritten (`e[field] = value`), an assignment to `__proto__` being
silently ignored by the object's prototype setter. -/
def processLine (st : EventAccum) (rawLine : Str) : EventAccum :=
  match sepIdx (trimRightWs rawLine) with
  | none => st
  | some index =>
    if index = 0 then st
    else if fieldInAccum st (lineField rawLine index) then
      if lineField rawLine index = str "data" then
        { st with data := st.data ++ lineValue rawLine index }
      else if lineField rawLine index = str "id" then
        { st with id := some (lineValue rawLine index) }
      else if lineField rawLine index = str "retry" then
        { st with retry := some (lineValue rawLine index) }
      else if lineField rawLine index = str "event" then
        { st with event := lineValue rawLine index }
      else if lineField rawLine index = str "__proto__" then st
      else
        { st with extra := assocSetStr st.extra (lineField rawLine index) (lineValue rawLine index) }
    else st

/-- The event object returned by `_parseEventChunk`: a `CustomEvent` whose
type is `e.event` carrying `e.data` and `e.id` (sse.ts lines 251-254);
`e.retry` is not attached to the returned event. -/
structure ParsedEvent where
  type : Str
  data : Str
  id : Option Str
deriving DecidableEq

/-- Model of `SSE._parseEventChunk` (sse.ts lines 222-255). -/
def parseEventChunk (chunk : Str) : Option ParsedEvent :=
  if chunk = [] then none
  else
    let e := (splitLines chunk).foldl processLine initAccum
    some ⟨e.event, e.data, e.id⟩

/-- Connection lifecycle states (sse.ts lines 3-8). -/
inductive XHRStates where
  | INITIALIZING
  | CONNECTING
  | OPEN
  | CLOSED
deriving DecidableEq

/-- Events dispatched by the engine, one constructor per construction site:
`readystatechange` (line 158), `open` (line 187), `error` (line 165),
`abort` (line 172), and the parsed-chunk event returned by
`_parseEventChunk` (lines 251-254). -/
inductive Ev where
  | readystatechange (state : XHRStates)
  | openEv
  | errorEv
  | abortEv
  | message (p : ParsedEvent)
deriving DecidableEq

/-- Mutable state of an `SSE` instance (sse.ts lines 65-69): `chunk` is the
pending unterminated chunk, `progress` the count of response characters
already consumed, `xhrPresent` whether `this.xhr` is set. -/
structure SSEState where
  readyState : XHRStates
  chunk : Str
  progress : Nat
  xhrPresent : Bool
deriving DecidableEq

/-- Model of `_setReadyState` (sse.ts lines 157-162): stores the new state
and dispatches a `readystatechange` event. -/
def setReadyState (s : XHRStates) (st : SSEState) : SSEState × List Ev :=
  ({ st with readyState := s }, [Ev.readystatechange s])

/-- Model of `close` (sse.ts lines 124-132).  The third component records
whether `this.xhr?.abort()` actually aborted a transport. -/
def close (st : SSEState) : SSEState × List Ev × Bool :=
  if st.readyState = XHRStates.CLOSED then (st, [], false)
  else
    let aborted := st.xhrPresent
    let st1 : SSEState := { st with xhrPresent := false }
    let p := setReadyState XHRStates.CLOSED st1
    (p.1, p.2, aborted)

/-- Model of `_onStreamFailure` (sse.ts lines 164-169): dispatch `error`,
then `close()`. -/
def onStreamFailure (st : SSEState) : SSEState × List Ev :=
  let p := close st
  (p.1, Ev.errorEv :: p.2.1)

/-- Model of `_onStreamAbort` (sse.ts lines 171-174): dispatch `abort`,
then `close()`. -/
def onStreamAbort (st : SSEState) : SSEState × List Ev :=
  let p := close st
  (p.1, Ev.abortEv :: p.2.1)

/-- Model of `data.split(/(\r\n|\r|\n){2}/g)` (sse.ts line 195).  Because
the regex has a capture group, the JavaScript result interleaves the
pieces with the capture group of each separator match (the text matched by
the second repetition).  At every position the engine tries, for each of
the two repetitions, the alternatives `\r\n`, `\r`, `\n` in order, with
backtracking across the repetitions; the cases below enumerate the
possible separator matches in exactly that preference order.  In
particular a lone `\r\n` pair already separates, matched as `\r` then
`\n` after the two-character alternative fails to leave a second line
break. -/
def splitDoubleAux : Str → Str → List Str
  | [], acc => [acc.reverse]
  | '\r' :: '\n' :: '\r' :: '\n' :: rest, acc =>
    acc.reverse :: ['\r', '\n'] :: splitDoubleAux rest []
  | '\r' :: '\n' :: '\r' :: rest, acc =>
    acc.reverse :: ['\r'] :: splitDoubleAux rest []
  | '\r' :: '\n' :: '\n' :: rest, acc =>
    acc.reverse :: ['\n'] :: splitDoubleAux rest []
  | '\r' :: '\n' :: rest, acc =>
    acc.reverse :: ['\n'] :: splitDoubleAux rest []
  | '\r' :: '\r' :: '\n' :: rest, acc =>
    acc.reverse :: ['\r', '\n'] :: splitDoubleAux rest []
  | '\r' :: '\r' :: rest, acc =>
    acc.reverse :: ['\r'] :: splitDoubleAux rest []
  | '\n' :: '\r' :: '\n' :: rest, acc =>
    acc.reverse :: ['\r', '\n'] :: splitDoubleAux rest []
  | '\n' :: '\r' :: rest, acc =>
    acc.reverse :: ['\r'] :: splitDoubleAux rest []
  | '\n' :: '\n' :: rest, acc =>
    acc.reverse :: ['\n'] :: splitDoubleAux rest []
  | c :: rest, acc => splitDoubleAux rest (c :: acc)

def splitDouble (s : Str) : List Str := splitDoubleAux s []

/-- The body of the `forEach` over split parts in `_onStreamProgress`
(sse.ts lines 195-205): a whitespace-only part marks the end of a chunk —
parse `this.chunk.trim()` and, if the parse is non-null, dispatch it and
reset the chunk; any other part is appended to the pending chunk. -/
def processPart (acc : SSEState × List Ev) (part : Str) : SSEState × List Ev :=
  if (jsTrim part).length = 0 then
    match parseEventChunk (jsTrim acc.1.chunk) with
    | none => acc
    | some p => ({ acc.1 with chunk := [] }, acc.2 ++ [Ev.message p])
  else
    ({ acc.1 with chunk := acc.1.chunk ++ part }, acc.2)

/-- Model of `_onStreamProgress` (sse.ts lines 176-206).  `fullText` is the
transport's cumulative `responseText` and `status` its HTTP status at the
time of the callback. -/
def onStreamProgress (fullText : Str) (status : Nat) (st : SSEState) :
    SSEState × List Ev :=
  if !st.xhrPresent then (st, [])
  else if status ≠ 200 then onStreamFailure st
  else
    let p1 :=
      if st.readyState = XHRStates.CONNECTING then
        let q := setReadyState XHRStates.OPEN st
        (q.1, Ev.openEv :: q.2)
      else (st, ([] : List Ev))
    let newData := fullText.drop p1.1.progress
    let st2 := { p1.1 with progress := p1.1.progress + newData.length }
    let p2 := (splitDouble newData).foldl processPart (st2, [])
    (p2.1, p1.2 ++ p2.2)

/-- Model of `_onStreamLoaded` (sse.ts lines 208-217): re-run the progress
logic, then parse and dispatch whatever remains in `this.chunk` (not
trimmed), clearing the chunk if the parse was non-null. -/
def onStreamLoaded (fullText : Str) (status : Nat) (st : SSEState) :
    SSEState × List Ev :=
  let p1 := onStreamProgress fullText status st
  match parseEventChunk p1.1.chunk with
  | none => p1
  | some p => ({ p1.1 with chunk := [] }, p1.2 ++ [Ev.message p])

/-- Model of `_checkStreamClosed` (sse.ts lines 257-265); `xhrReadyState`
is the transport's low-level ready state, `4` being `XMLHttpRequest.DONE`. -/
def checkStreamClosed (xhrReadyState : Nat) (st : SSEState) :
    SSEState × List Ev :=
  if !st.xhrPresent then (st, [])
  else if xhrReadyState = 4 then setReadyState XHRStates.CLOSED st
  else (st, [])

/-- Data events in the sense of the lifecycle claims: `open`, and every
parsed-chunk event (such as `next` or `message`). -/
def isDataEvent : Ev → Bool
  | Ev.openEv => true
  | Ev.message _ => true
  | _ => false

def dataEvents (evs : List Ev) : List Ev := evs.filter isDataEvent

/-- Drive a freshly streamed engine (state just after `stream()`:
`CONNECTING`, empty buffer, transport attached) through one successful
progress callback per increment — the transport's `responseText` is
cumulative — followed by the final `load` callback, collecting every
dispatched event. -/
def driveAux : SSEState → Str → List Str → SSEState × List Ev
  | st, _, [] => (st, [])
  | st, sofar, inc :: rest =>
    let cum := sofar ++ inc
    let p1 := onStreamProgress cum 200 st
    let p2 := driveAux p1.1 cum rest
    (p2.1, p1.2 ++ p2.2)

def driveSSE (incs : List Str) : List Ev :=
  let p := driveAux ⟨XHRStates.CONNECTING, [], 0, true⟩ [] incs
  let q := onStreamLoaded (incs.foldl (· ++ ·) []) 200 p.1
  p.2 ++ q.2

/-- A registered listener, modelled by what the dispatcher can observe of
it: given the current `defaultPrevented` flag of the event, does the
callback call `preventDefault()` during its run?  (DOM events can only set
the flag, never clear it.) -/
abbrev Cb := Bool → Bool

/-- Model of the listener walk of `dispatchEvent` (sse.ts lines 147-152):
`this.listeners[e.type].every(cb => { cb(e); return !e.defaultPrevented })`.
The input list is `this.listeners[type]` in registration order and `flag`
the event's `defaultPrevented` flag.  Returns the positions (0-based
registration indices) of the callbacks that were invoked, in invocation
order, and the value `dispatchEvent` returns. -/
def dispatchWalk : List Cb → Bool → List Nat × Bool
  | [], _ => ([], true)
  | cb :: rest, flag =>
    if flag || cb flag then ([0], false)
    else (0 :: (dispatchWalk rest (flag || cb flag)).1.map (· + 1),
      (dispatchWalk rest (flag || cb flag)).2)

/-- Written from the claim's words: the registration index of the first
callback after whose invocation the event is marked default-prevented,
if any. -/
def firstPrevented : List Cb → Bool → Option Nat
  | [], _ => none
  | cb :: rest, flag =>
    if flag || cb flag then some 0
    else (firstPrevented rest (flag || cb flag)).map (· + 1)

/-- JavaScript object as an insertion-ordered association list with unique
keys. -/
def objSet : List (String × String) → String → String → List (String × String)
  | [], k, v => [(k, v)]
  | (k', v') :: rest, k, v =>
    if k' = k then (k', v) :: rest else (k', v') :: objSet rest k v

def objLookup : List (String × String) → String → Option String
  | [], _ => none
  | (k', v') :: rest, k => if k' = k then some v' else objLookup rest k

/-- Evaluation of the object spread `{...entries}`: properties are copied
in order, later duplicates overwriting earlier ones. -/
def spreadObj (entries : List (String × String)) : List (String × String) :=
  entries.foldl (fun o p => objSet o p.1 p.2) []

/-- Model of the headers object built by `subscribe`
(subscription.ts lines 29-33):
`{ ...(headers ?? {}), 'X-GQL-Transport': 'live-query',
   'Content-Type': 'application/json' }`. -/
def subscribeHeaders (caller : List (String × String)) :
    List (String × String) :=
  objSet (objSet (spreadObj caller) "X-GQL-Transport" "live-query")
    "Content-Type" "application/json"

/-- JavaScript values as produced by `JSON.parse`, plus `undef` for the
absent-property value `undefined`. -/
inductive JsValue where
  | null
  | undef
  | bool (b : Bool)
  | num (n : Int)
  | str (s : String)
  | arr (elems : List JsValue)
  | obj (fields : List (String × JsValue))

/-- JavaScript truthiness, as used by `payload.patch && lastValue`
(subscription.ts line 42).  Arrays and objects are always truthy, in
particular the empty patch array `[]`. -/
def truthy : JsValue → Bool
  | .null => false
  | .undef => false
  | .bool b => b
  | .num n => n != 0
  | .str s => s != ""
  | .arr _ => true
  | .obj _ => true

/-- The strict comparison `payload.data !== null` (subscription.ts
line 44); note `undefined !== null` is true. -/
def isNull : JsValue → Bool
  | .null => true
  | _ => false

/-- The parsed `next` payload as typed by the source
(`LiveQueryResponse<T>`): the `data`, `errors` and `patch` properties of
the object returned by `JSON.parse`, each `undef` when absent. -/
structure LQResponse where
  data : JsValue
  errors : JsValue
  patch : JsValue

/-- The reconciliation step of the `next` listener (subscription.ts
lines 40-51), with JSON-Patch application an external black box `ap` that
either returns a new document or throws.  An `Except.error` result models
an exception propagating out of the listener: `onData` is then never
invoked and the caller's stored `lastValue` keeps its previous value.  An
`Except.ok (v, errs, newLast)` result models the call
`onData(v, errs)` followed by the assignment `lastValue = newLast`. -/
def reconcileNext (ap : JsValue → JsValue → Except String JsValue)
    (payload : LQResponse) (lastValue : JsValue) :
    Except String (JsValue × JsValue × JsValue) :=
  if truthy payload.patch && truthy lastValue then
    match ap lastValue payload.patch with
    | .error e => .error e
    | .ok v => .ok (v, payload.errors, v)
  else if isNull payload.data then .ok (.null, payload.errors, .null)
  else .ok (payload.data, payload.errors, payload.data)

/-- The whole `next` listener (subscription.ts lines 36-52):
`JSON.parse(dataEvent.data)` — an external black box `parseJson` that
either returns the payload or throws — followed by the reconciliation
step. -/
def nextListener (parseJson : Str → Except String LQResponse)
    (ap : JsValue → JsValue → Except String JsValue)
    (raw : Str) (lastValue : JsValue) :
    Except String (JsValue × JsValue × JsValue) :=
  match parseJson raw with
  | .error e => .error e
  | .ok payload => reconcileNext ap payload lastValue

/-- The contribution of one raw line to the accumulated `data` field, read
off the branch structure of `processLine`: the line is right-trimmed, and
if its field name (text before the first `:`, which must not be first) is
exactly `data`, the value is the text after the separator with leading
whitespace stripped; otherwise the line contributes nothing. -/
def lineDataValue (raw : Str) : Str :=
  match sepIdx (trimRightWs raw) with
  | none => []
  | some i =>
    if i = 0 then []
    else if lineField raw i = str "data" then lineValue raw i
    else []

def linesDataConcat : List Str → Str
  | [] => []
  | l :: ls => lineDataValue l ++ linesDataConcat ls

/-- Whether a raw line is an `event` field line (and hence overwrites the
event type). -/
def lineIsEvent (raw : Str) : Bool :=
  match sepIdx (trimRightWs raw) with
  | none => false
  | some i =>
    if i = 0 then false
    else decide (lineField raw i = str "event")

/-- Written from the claim's words for C6: the value of a `data` line is
"the text after the first separator with leading whitespace stripped" —
with no right-trimming of the line. -/
def claimLineDataValue (raw : Str) : Str :=
  match sepIdx raw with
  | none => []
  | some i =>
    if i = 0 then []
    else if raw.take i = str "data" then trimLeftWs (raw.drop (i + 1))
    else []

def claimDataConcat (chunk : Str) : Str :=
  ((splitLines chunk).map claimLineDataValue).foldl (· ++ ·) []

/-- Number of `readystatechange` events to `CLOSED` in a dispatch trace. -/
def countRscClosed (evs : List Ev) : Nat :=
  evs.count (Ev.readystatechange XHRStates.CLOSED)

/-- A concrete black-box `applyPatch` instance that returns the document
unchanged — the behavior of JSON-Patch application for the empty patch
list `[]`. -/
def apId : JsValue → JsValue → Except String JsValue :=
  fun doc _ => Except.ok doc

/-- A concrete black-box `applyPatch` instance that throws, as
`fast-json-patch` does on a failed `test` operation. -/
def apFail : JsValue → JsValue → Except String JsValue :=
  fun _ _ => Except.error "test operation failed"

/-- A concrete black-box `applyPatch` instance with an arbitrary successful
result. -/
def ap42 : JsValue → JsValue → Except String JsValue :=
  fun _ _ => Except.ok (JsValue.num 42)

/-- Parsed body `{"data": 5, "errors": null, "patch": []}`: a `next`
message carrying both a (trivial) patch and full data. -/
def falsyPayload : LQResponse := ⟨.num 5, .null, .arr []⟩

/-- Parsed body
`{"data": null, "errors": null, "patch": [{"op":"test","path":"/a","value":2}]}`. -/
def testPayload : LQResponse :=
  ⟨.null, .null,
   .arr [.obj [("op", .str "test"), ("path", .str "/a"), ("value", .num 2)]]⟩

/-- Parsed body
`{"data": null, "errors": null, "patch": [{"op":"replace","path":"/a","value":2}]}`. -/
def patchedPayload : LQResponse :=
  ⟨.null, .null,
   .arr [.obj [("op", .str "replace"), ("path", .str "/a"), ("value", .num 2)]]⟩

/-- A concrete black-box `JSON.parse` instance that throws, as on malformed
JSON text. -/
def parseFailEx : Str → Except String LQResponse :=
  fun _ => Except.error "Unexpected token"

/-- The engine state reached by streaming the partial payload `data:x`
(no terminating blank line) and then calling `close()`. -/
def c4State : SSEState :=
  (close ((onStreamProgress (str "data:x") 200
    ⟨XHRStates.CONNECTING, [], 0, true⟩).1)).1

/-- A concrete non-closed engine state with a live transport. -/
def c8Start : SSEState := ⟨XHRStates.OPEN, str "data:x", 6, true⟩

/-- A concrete caller headers map that tries to override a fixed header. -/
def callerHeadersEx : List (String × String) :=
  [("X-GQL-Transport", "evil"), ("Authorization", "token123")]

theorem fieldInAccum_data (st : EventAccum) :
    fieldInAccum st (str "data") = true := by
  simp [fieldInAccum, coreFieldNames]

/-- A line whose field name is not one of the four recognized own fields
leaves the event-determining fields of the accumulator unchanged,
whatever the line is. -/
theorem processLine_core_of_not_core (st : EventAccum) (l : Str)
    (h : ∀ i, sepIdx (trimRightWs l) = some i → 0 < i →
      lineField l i ∉ coreFieldNames) :
    (processLine st l).id = st.id ∧ (processLine st l).retry = st.retry ∧
    (processLine st l).data = st.data ∧ (processLine st l).event = st.event := by
  unfold processLine
  cases hsep : sepIdx (trimRightWs l) with
  | none => exact ⟨rfl, rfl, rfl, rfl⟩
  | some i =>
    by_cases h0 : i = 0
    · simp [h0]
    · have hmem := h i hsep (Nat.pos_of_ne_zero h0)
      simp only [coreFieldNames, List.mem_cons, List.not_mem_nil, or_false,
        not_or] at hmem
      obtain ⟨hnid, hnretry, hndata, hnevent⟩ := hmem
      simp only [h0, if_false, hnid, hnretry, hndata, hnevent]
      by_cases hfa : fieldInAccum st (lineField l i) = true
      · simp only [hfa, if_true]
        split <;> exact ⟨rfl, rfl, rfl, rfl⟩
      · simp only [hfa, if_false]
        exact ⟨rfl, rfl, rfl, rfl⟩

theorem processLine_data (st : EventAccum) (l : Str) :
    (processLine st l).data = st.data ++ lineDataValue l := by
  unfold processLine lineDataValue
  cases hsep : sepIdx (trimRightWs l) with
  | none => simp
  | some i =>
    by_cases h0 : i = 0
    · simp [h0]
    · simp only [h0, if_false]
      by_cases hd : lineField l i = str "data"
      · simp [hd, fieldInAccum_data st]
      · by_cases hfa : fieldInAccum st (lineField l i) = true
        · simp only [hfa, if_true, hd, if_false]
          split_ifs <;> simp
        · simp [hfa, hd]

theorem processLine_event (st : EventAccum) (l : Str)
    (h : lineIsEvent l = false) :
    (processLine st l).event = st.event := by
  unfold processLine
  unfold lineIsEvent at h
  cases hsep : sepIdx (trimRightWs l) with
  | none => rfl
  | some i =>
    rw [hsep] at h
    by_cases h0 : i = 0
    · simp [h0]
    · simp only [h0, if_false, decide_eq_false_iff_not] at h ⊢
      by_cases hfa : fieldInAccum st (lineField l i) = true
      · simp only [hfa, if_true]
        split_ifs <;> simp_all
      · simp [hfa]

theorem foldl_processLine_data (lines : List Str) (st : EventAccum) :
    (lines.foldl processLine st).data = st.data ++ linesDataConcat lines := by
  induction lines generalizing st with
  | nil => simp [linesDataConcat]
  | cons l ls ih =>
    simp only [List.foldl_cons, linesDataConcat]
    rw [ih, processLine_data, List.append_assoc]

theorem foldl_processLine_event (lines : List Str) (st : EventAccum)
    (h : ∀ l ∈ lines, lineIsEvent l = false) :
    (lines.foldl processLine st).event = st.event := by
  induction lines generalizing st with
  | nil => rfl
  | cons l ls ih =>
    simp only [List.foldl_cons]
    rw [ih _ (fun x hx => h x (List.mem_cons_of_mem _ hx)),
      processLine_event _ _ (h l (List.mem_cons_self _ _))]

theorem objLookup_objSet_self (o : List (String × String)) (k v : String) :
    objLookup (objSet o k v) k = some v := by
  induction o with
  | nil => simp [objSet, objLookup]
  | cons p rest ih =>
    obtain ⟨k', v'⟩ := p
    by_cases h : k' = k
    · simp [objSet, objLookup, h]
    · simp [objSet, objLookup, h, ih]

theorem objLookup_objSet_other (o : List (String × String)) (k v k2 : String)
    (h : k2 ≠ k) : objLookup (objSet o k v) k2 = objLookup o k2 := by
  induction o with
  | nil => simp [objSet, objLookup, Ne.symm h]
  | cons p rest ih =>
    obtain ⟨k', v'⟩ := p
    by_cases hk : k' = k
    · subst hk
      simp [objSet, objLookup, Ne.symm h]
    · by_cases hk2 : k' = k2
      · subst hk2
        simp [objSet, objLookup, hk]
      · simp [objSet, objLookup, hk, hk2, ih]

/-- The general dispatch walk characterization, for an arbitrary initial
`defaultPrevented` flag. -/
theorem dispatchWalk_spec (cbs : List Cb) : ∀ flag,
    dispatchWalk cbs flag =
      match firstPrevented cbs flag with
      | some k => (List.range (k + 1), false)
      | none => (List.range cbs.length, true) := by
  induction cbs with
  | nil => intro flag; rfl
  | cons cb rest ih =>
    intro flag
    cases hfl : (flag || cb flag) with
    | true =>
      simp only [dispatchWalk, firstPrevented, hfl, if_true]
      decide
    | false =>
      simp only [dispatchWalk, firstPrevented, hfl, Bool.false_eq_true,
        if_false]
      rw [ih false]
      cases hfp : firstPrevented rest false with
      | none =>
        simp [hfp, List.range_succ_eq_map, Nat.succ_eq_add_one]
      | some k =>
        simp [hfp, List.range_succ_eq_map, Nat.succ_eq_add_one]

/-- C1: the claim states that the dispatched data-event sequence is
independent of how the payload is split into progress increments; the code
violates it.  The complete payload `"data:a\n\ndata:b"` delivered in one
increment yields two events with data `"a"` and `"b"`, but delivered as
`"data:a\n"` then `"\ndata:b"` — the blank-line delimiter split across the
two increments — the delimiter is never recognized (each increment is split
separately) and the load-callback flush dispatches a single merged event
with data `"ab"`. -/
theorem c1_chunking_split_dependent :
    dataEvents (driveSSE [str "data:a\n\ndata:b"]) =
      [Ev.openEv, Ev.message ⟨str "message", str "a", none⟩,
        Ev.message ⟨str "message", str "b", none⟩] ∧
    dataEvents (driveSSE [str "data:a\n", str "\ndata:b"]) =
      [Ev.openEv, Ev.message ⟨str "message", str "ab", none⟩] ∧
    dataEvents (driveSSE [str "data:a\n", str "\ndata:b"]) ≠
      dataEvents (driveSSE [str "data:a\n\ndata:b"]) := by
  refine ⟨by decide, by decide, by decide⟩

/-- C2: the claim states that a failing patch application is caught inside
the `next` handler and surfaced through `onData`; the code has no
try/catch, so the exception thrown by `applyPatch` (here: a failing `test`
operation, modelled by the black-box instance `apFail`) propagates out of
the listener — modelled by the `Except.error` result — and `onData` is
never invoked (though `lastValue` is indeed left unchanged, the handler
having died before the assignment). -/
theorem c2_patch_failure_uncaught :
    reconcileNext apFail testPayload (JsValue.obj [("a", JsValue.num 1)]) =
      Except.error "test operation failed" := rfl

/-- C3 counterexample: with a previously stored falsy value `0`, a `next`
body carrying the (truthy) empty patch `[]` and `data: 5`, the emitted
value is `5` (the `data` branch), not the result of applying the patch to
the previous value (which is `0`, patch application with the empty patch
returning the document unchanged): `payload.patch && lastValue` is false
for the falsy previous value `0`. -/
theorem c3_counterexample :
    reconcileNext apId falsyPayload (JsValue.num 0) =
      Except.ok (JsValue.num 5, JsValue.null, JsValue.num 5) ∧
    apId (JsValue.num 0) falsyPayload.patch = Except.ok (JsValue.num 0) ∧
    JsValue.num 5 ≠ JsValue.num 0 := by
  refine ⟨rfl, rfl, ?_⟩
  intro h
  injection h with h'
  exact absurd h' (by decide)

/-- C3 amended: the patch branch is taken exactly when the `patch` field is
truthy and the previously stored value is truthy (falsy previous values
such as null, 0, the empty string or false fall through to the data/null
branches); in the patch branch the emitted value is the black-box patch
application result (an exception propagating out); otherwise non-null
`data` is emitted verbatim, else null; in every non-throwing case
`onData(value, errors)` is called and the stored last value is set to the
emitted value, even when it is null (the `Except.ok` triple is
(emitted value, errors argument, new stored value)). -/
theorem c3_amended_patch_requires_truthy
    (ap : JsValue → JsValue → Except String JsValue)
    (payload : LQResponse) (last : JsValue) :
    ((truthy payload.patch && truthy last) = true →
      reconcileNext ap payload last =
        match ap last payload.patch with
        | .error e => .error e
        | .ok v => .ok (v, payload.errors, v)) ∧
    ((truthy payload.patch && truthy last) = false →
      isNull payload.data = false →
      reconcileNext ap payload last =
        .ok (payload.data, payload.errors, payload.data)) ∧
    ((truthy payload.patch && truthy last) = false →
      isNull payload.data = true →
      reconcileNext ap payload last =
        .ok (.null, payload.errors, .null)) := by
  refine ⟨fun h => ?_, fun h h2 => ?_, fun h h2 => ?_⟩
  · simp [reconcileNext, h]
  · simp [reconcileNext, h, h2]
  · simp [reconcileNext, h, h2]

/-- C3 witness: a truthy previous value `{"a":1}` with a present patch
takes the patch branch and emits the black-box application result. -/
theorem c3_witness :
    reconcileNext ap42 patchedPayload (JsValue.obj [("a", JsValue.num 1)]) =
      Except.ok (JsValue.num 42, JsValue.null, JsValue.num 42) :=
  ((c3_amended_patch_requires_truthy ap42 patchedPayload
      (JsValue.obj [("a", JsValue.num 1)])).1 rfl).trans rfl

/-- C4 counterexample: stream the unterminated payload `"data:x"`, then
`close()`; the state is `CLOSED` and the transport released, yet a
subsequent load callback still dispatches the pending chunk as a data
event — `close()` does not clear the pending chunk and the final flush in
`_onStreamLoaded` is not gated on the connection state. -/
theorem c4_counterexample :
    c4State.readyState = XHRStates.CLOSED ∧
    c4State.xhrPresent = false ∧
    dataEvents (onStreamLoaded (str "data:x") 200 c4State).2 =
      [Ev.message ⟨str "message", str "x", none⟩] := by
  refine ⟨by decide, by decide, by decide⟩

/-- C4 amended: after `close()` has run (state `CLOSED`, transport
released), a subsequent progress callback is a complete no-op, the error,
abort and ready-state-change callbacks dispatch no data event and change
no state (error and abort still dispatch their own `error`/`abort`
events), and a load callback leaves the ready state `CLOSED` and
dispatches nothing beyond the possible single flush of the pending
chunk. -/
theorem c4_closed_is_quiescent_except_load_flush (st : SSEState)
    (h1 : st.readyState = XHRStates.CLOSED) (h2 : st.xhrPresent = false) :
    (∀ t s, onStreamProgress t s st = (st, [])) ∧
    onStreamFailure st = (st, [Ev.errorEv]) ∧
    onStreamAbort st = (st, [Ev.abortEv]) ∧
    (∀ rs, checkStreamClosed rs st = (st, [])) ∧
    (∀ t s, (onStreamLoaded t s st).1.readyState = XHRStates.CLOSED ∧
      (onStreamLoaded t s st).2 =
        match parseEventChunk st.chunk with
        | none => []
        | some p => [Ev.message p]) := by
  have hprog : ∀ t s, onStreamProgress t s st = (st, []) := by
    intro t s
    simp [onStreamProgress, h2]
  refine ⟨hprog, ?_, ?_, ?_, ?_⟩
  · simp [onStreamFailure, close, h1]
  · simp [onStreamAbort, close, h1]
  · intro rs
    simp [checkStreamClosed, h2]
  · intro t s
    unfold onStreamLoaded
    rw [hprog t s]
    cases hp : parseEventChunk st.chunk with
    | none => simp [hp, h1]
    | some p => simp [hp, h1]

/-- C4 witness: a concrete closed-and-released state with a pending chunk,
on which the error callback dispatches only its `error` event and changes
nothing. -/
theorem c4_witness :
    onStreamFailure ⟨XHRStates.CLOSED, str "data:y", 7, false⟩ =
      (⟨XHRStates.CLOSED, str "data:y", 7, false⟩, [Ev.errorEv]) :=
  (c4_closed_is_quiescent_except_load_flush
    ⟨XHRStates.CLOSED, str "data:y", 7, false⟩ rfl rfl).2.1

/-- C5: a line with no `:` separator, or with the separator first, or
whose field name is not one of the four recognized fields `id`, `retry`,
`data`, `event`, contributes nothing to the parsed event: the
event-determining accumulator fields are unchanged.  This holds for every
other field name, including `Object.prototype` names such as `toString`,
which pass the source's `field in e` test but only create own properties
that the returned event never reads. -/
theorem c5_unrecognized_line_contributes_nothing (st : EventAccum) (l : Str)
    (h : sepIdx (trimRightWs l) = none ∨ sepIdx (trimRightWs l) = some 0 ∨
      ∃ i, sepIdx (trimRightWs l) = some i ∧ 0 < i ∧
        lineField l i ∉ coreFieldNames) :
    (processLine st l).id = st.id ∧ (processLine st l).retry = st.retry ∧
    (processLine st l).data = st.data ∧ (processLine st l).event = st.event := by
  apply processLine_core_of_not_core
  intro i hi hpos
  rcases h with h | h | ⟨j, hj, hjpos, hjmem⟩
  · rw [h] at hi
    exact absurd hi (by simp)
  · rw [h] at hi
    injection hi with hi0
    omega
  · rw [hj] at hi
    injection hi with hi0
    exact hi0 ▸ hjmem

/-- C5 witness: the line `toString:x` (a prototype-named field) and the
comment line `:c` both leave a concrete accumulator unchanged. -/
theorem c5_witness :
    (processLine initAccum (str "toString:x")).id = initAccum.id ∧
    (processLine initAccum (str "toString:x")).retry = initAccum.retry ∧
    (processLine initAccum (str "toString:x")).data = initAccum.data ∧
    (processLine initAccum (str "toString:x")).event = initAccum.event :=
  c5_unrecognized_line_contributes_nothing initAccum (str "toString:x")
    (Or.inr (Or.inr ⟨8, by decide, by decide, by decide⟩))

/-- C6 counterexample: the claim defines the value of a `data` line as
"the text after the first separator with leading whitespace stripped",
but the source right-trims each line first (`line.trimEnd()`), so for the
chunk `"data:a \ndata:b"` the parsed data is `"ab"` while the claim's
formula gives `"a b"`. -/
theorem c6_counterexample :
    parseEventChunk (str "data:a \ndata:b") =
      some ⟨str "message", str "ab", none⟩ ∧
    claimDataConcat (str "data:a \ndata:b") = str "a b" ∧
    str "ab" ≠ str "a b" := by
  refine ⟨by decide, by decide, by decide⟩

/-- C6 amended: `parseEventChunk` returns null exactly on the empty chunk;
otherwise the event's `data` is the in-order concatenation, with no
inserted separator, of the values of every `data` line — each value being
the text after the first separator of the right-trimmed line, with
leading whitespace stripped — and the type defaults to `message` when no
`event` line is present. -/
theorem c6_data_is_ordered_concat (chunk : Str) :
    (parseEventChunk chunk = none ↔ chunk = []) ∧
    (∀ p, parseEventChunk chunk = some p →
      p.data = linesDataConcat (splitLines chunk) ∧
      ((∀ l ∈ splitLines chunk, lineIsEvent l = false) →
        p.type = str "message")) := by
  constructor
  · unfold parseEventChunk
    by_cases h : chunk = [] <;> simp [h]
  · intro p hp
    unfold parseEventChunk at hp
    by_cases h : chunk = []
    · simp [h] at hp
    · simp only [h, if_false, Option.some.injEq] at hp
      subst hp
      constructor
      · show ((splitLines chunk).foldl processLine initAccum).data = _
        rw [foldl_processLine_data]
        rfl
      · intro hev
        show ((splitLines chunk).foldl processLine initAccum).event = _
        rw [foldl_processLine_event _ _ hev]
        rfl

/-- C6 witness: the chunk `"data:foo\ndata:bar"` parses to an event whose
data is the separator-free concatenation `"foobar"`. -/
theorem c6_witness :
    (⟨str "message", str "foobar", none⟩ : ParsedEvent).data =
      linesDataConcat (splitLines (str "data:foo\ndata:bar")) ∧
    linesDataConcat (splitLines (str "data:foo\ndata:bar")) = str "foobar" :=
  ⟨((c6_data_is_ordered_concat (str "data:foo\ndata:bar")).2
      ⟨str "message", str "foobar", none⟩ (by decide)).1, by decide⟩

/-- C7: the headers configured on the constructed engine map
`X-GQL-Transport` to `live-query` and `Content-Type` to
`application/json` whatever the caller supplied (the fixed headers are
spread after the caller's), and every caller header under any other key
is passed through unchanged. -/
theorem c7_fixed_headers_win (caller : List (String × String)) :
    objLookup (subscribeHeaders caller) "X-GQL-Transport" =
      some "live-query" ∧
    objLookup (subscribeHeaders caller) "Content-Type" =
      some "application/json" ∧
    ∀ k, k ≠ "X-GQL-Transport" → k ≠ "Content-Type" →
      objLookup (subscribeHeaders caller) k =
        objLookup (spreadObj caller) k := by
  refine ⟨?_, ?_, ?_⟩
  · unfold subscribeHeaders
    rw [objLookup_objSet_other _ _ _ _ (by decide)]
    exact objLookup_objSet_self _ _ _
  · exact objLookup_objSet_self _ _ _
  · intro k h1 h2
    unfold subscribeHeaders
    rw [objLookup_objSet_other _ _ _ _ h2, objLookup_objSet_other _ _ _ _ h1]

/-- C7 witness: a caller map that tries to override `X-GQL-Transport`
loses, while its `Authorization` entry passes through unchanged. -/
theorem c7_witness :
    objLookup (subscribeHeaders callerHeadersEx) "X-GQL-Transport" =
      some "live-query" ∧
    objLookup (subscribeHeaders callerHeadersEx) "Authorization" =
      some "token123" :=
  ⟨(c7_fixed_headers_win callerHeadersEx).1,
    ((c7_fixed_headers_win callerHeadersEx).2.2 "Authorization"
      (by decide) (by decide)).trans (by decide)⟩

/-- C8: from any non-closed state, the first `close()` transitions to
`CLOSED`; the second `close()` is a complete no-op — same state, no
dispatched event, no transport abort — and across the two calls exactly
one `readystatechange` event to `CLOSED` is dispatched. -/
theorem c8_close_idempotent (st : SSEState)
    (h : st.readyState ≠ XHRStates.CLOSED) :
    (close st).1.readyState = XHRStates.CLOSED ∧
    close (close st).1 = ((close st).1, [], false) ∧
    countRscClosed ((close st).2.1 ++ (close (close st).1).2.1) = 1 := by
  unfold close setReadyState
  simp [h, countRscClosed]

/-- C8 witness: the double close on a concrete open state with a live
transport. -/
theorem c8_witness :
    (close c8Start).1.readyState = XHRStates.CLOSED ∧
    close (close c8Start).1 = ((close c8Start).1, [], false) ∧
    countRscClosed ((close c8Start).2.1 ++ (close (close c8Start).1).2.1) = 1 :=
  c8_close_idempotent c8Start (by decide)

/-- C9: for any registered listener list and an event whose default is not
yet prevented, the dispatch walk invokes the callbacks in registration
order; if some callback marks the event default-prevented, that callback
runs but no later one does and dispatch returns false (the invoked indices
are exactly `0..k` for the first preventing position `k`); if no callback
prevents the default, every registered callback is invoked exactly once,
in order, and dispatch returns true. -/
theorem c9_dispatch_order (cbs : List Cb) :
    dispatchWalk cbs false =
      match firstPrevented cbs false with
      | some k => (List.range (k + 1), false)
      | none => (List.range cbs.length, true) :=
  dispatchWalk_spec cbs false

/-- C10: when `JSON.parse` throws on the `next` event's data, the
exception propagates uncaught out of the listener (the `Except.error`
result): `onData` is not invoked and the stored last value is unchanged,
so malformed messages are not reported through the `onData` error
channel. -/
theorem c10_invalid_json_throws
    (parseJson : Str → Except String LQResponse)
    (ap : JsValue → JsValue → Except String JsValue)
    (raw : Str) (last : JsValue) (err : String)
    (h : parseJson raw = Except.error err) :
    nextListener parseJson ap raw last = Except.error err := by
  unfold nextListener
  rw [h]

/-- C10 witness: a concrete throwing parse on the non-JSON text
`not json`. -/
theorem c10_witness :
    nextListener parseFailEx apId (str "not json") JsValue.null =
      Except.error "Unexpected token" :=
  c10_invalid_json_throws parseFailEx apId (str "not json") JsValue.null
    "Unexpected token" rfl

end LQC
